import Mathlib

/-!
# A verification development for the `rasta-rs` repository

This file gives a shallow embedding, in Lean 4, of the parts of the
`rasta-rs` code base (a simplified RaSTA transport implementation
together with the `sci-rs` SCI telegram codec) that the specification's
testable properties talk about, and proves or refutes those properties.

Modelling conventions:
* Bytes are `Nat` values `< 256`; byte buffers are `List Nat`.
  Multi-byte integers are stored little-endian (the implementation uses
  `to_ne_bytes`/`from_ne_bytes`, i.e. the host's native order; the de
  facto target order is little-endian and encode/decode agree on it, so
  the choice is observationally irrelevant here).
* Machine-integer overflow is made explicit with `% 2^16` / `% 2^32`.
* Fallible Rust code is modelled with `Except`; a Rust panic (index out
  of bounds, arithmetic overflow in debug builds, `unwrap` of `None`,
  `unimplemented!`, a failed `assert!`) is modelled as `Option.none` in
  an outer `Option` layer.
* Rust `String` values are modelled by their UTF-8 byte sequences;
  `String::from_utf8_lossy` is modelled as the identity, which is
  faithful on valid UTF-8 (in particular ASCII) byte sequences; the
  theorems that depend on it carry an ASCII hypothesis.
-/

set_option maxRecDepth 100000

/-! ## Byte-buffer primitives -/

/-- `writeAt buf off bs` models Rust's
`buf[off..off + bs.len()].copy_from_slice(&bs)`: it overwrites the bytes
of `buf` starting at `off` with `bs`.  It is faithful to the source when
`off + bs.length ≤ buf.length` (otherwise the Rust code panics); every
use below satisfies that bound. -/
def writeAt (buf : List Nat) (off : Nat) (bs : List Nat) : List Nat :=
  buf.take off ++ bs ++ buf.drop (off + bs.length)

/-- Little-endian byte encoding of `v` on `k` bytes, as produced by
`(v as uNk).to_ne_bytes()` on a little-endian host (each byte reduced
`% 256`, so the value is implicitly reduced `% 256^k`). -/
def writeLE (v : Nat) : Nat → List Nat
  | 0 => []
  | k + 1 => v % 256 :: writeLE (v / 256) k

/-- Little-endian read of `k` bytes starting at `off`, as done by
`uNk::from_ne_bytes(buf[off..off+k])` on a little-endian host.  Reads
outside the buffer yield the default `0`; all uses below are in bounds
(the corresponding Rust slice indexing would panic out of bounds). -/
def readLE (l : List Nat) (off : Nat) : Nat → Nat
  | 0 => 0
  | k + 1 => l.getD off 0 + 256 * readLE l (off + 1) k

/-- `extract l off n` models the Rust slice `&l[off..off+n]`; faithful
when `off + n ≤ l.length` (otherwise Rust panics). -/
def extract (l : List Nat) (off n : Nat) : List Nat :=
  (l.drop off).take n

/-! ## The RaSTA message model (`src/message.rs`) -/

/-- `RASTA_VERSION`: the bytes `"0301"`. -/
def RASTA_VERSION : List Nat := [0x30, 0x33, 0x30, 0x31]

/-- `N_SENDMAX = u16::MAX` (`src/lib.rs`). -/
def N_SENDMAX : Nat := 65535

/-- The RaSTA message-type codes (`enum MessageType`). -/
inductive MessageType where
  | ConnReq | ConnResp | RetrReq | RetrResp | DiscReq | HB | Data | RetrData
  deriving DecidableEq, Repr

/-- The `u16` discriminant of each `MessageType` value. -/
def MessageType.code : MessageType → Nat
  | .ConnReq => 6200
  | .ConnResp => 6201
  | .RetrReq => 6212
  | .RetrResp => 6213
  | .DiscReq => 6216
  | .HB => 6220
  | .Data => 6240
  | .RetrData => 6241

/-- `impl TryFrom<u16> for MessageType`; `none` models the `Err` branch
(`RastaError::Other("Value {n} is not a valid Message Type")`). -/
def MessageType.tryFrom (value : Nat) : Option MessageType :=
  if value = 6200 then some .ConnReq
  else if value = 6201 then some .ConnResp
  else if value = 6212 then some .RetrReq
  else if value = 6213 then some .RetrResp
  else if value = 6216 then some .DiscReq
  else if value = 6220 then some .HB
  else if value = 6240 then some .Data
  else if value = 6241 then some .RetrData
  else none

/-- `struct Message { content: Vec<u8>, data_len: Option<usize> }`. -/
structure Message where
  content : List Nat
  data_len : Option Nat
  deriving DecidableEq, Repr

/-- `impl Default for Message`: a zero-filled 1024-byte buffer and no
data length. -/
def Message.default : Message :=
  { content := List.replicate 1024 0, data_len := none }

namespace MessageBuilder

/-! The `MessageBuilder` methods, each modelled as a function on the
message being built (the builder is a plain wrapper around a message). -/

/-- `MessageBuilder::length`: writes the `u16` length at offset 0. -/
def length (m : Message) (len : Nat) : Message :=
  { m with content := writeAt m.content 0 (writeLE len 2) }

/-- `MessageBuilder::message_type`: writes the `u16` code at offset 3. -/
def message_type (m : Message) (mt : MessageType) : Message :=
  { m with content := writeAt m.content 3 (writeLE mt.code 2) }

/-- `MessageBuilder::receiver`: writes the `u32` receiver id at offset 6. -/
def receiver (m : Message) (r : Nat) : Message :=
  { m with content := writeAt m.content 6 (writeLE r 4) }

/-- `MessageBuilder::sender`: writes the `u32` sender id at offset 10. -/
def sender (m : Message) (s : Nat) : Message :=
  { m with content := writeAt m.content 10 (writeLE s 4) }

/-- `MessageBuilder::sequence_number`: writes the `u32` at offset 15. -/
def sequence_number (m : Message) (q : Nat) : Message :=
  { m with content := writeAt m.content 15 (writeLE q 4) }

/-- `MessageBuilder::confirmed_sequence_number`: `u32` at offset 19. -/
def confirmed_sequence_number (m : Message) (c : Nat) : Message :=
  { m with content := writeAt m.content 19 (writeLE c 4) }

/-- `MessageBuilder::timestamp`: writes the `u32` at offset 24. -/
def timestamp (m : Message) (t : Nat) : Message :=
  { m with content := writeAt m.content 24 (writeLE t 4) }

/-- `MessageBuilder::confirmed_timestamp`: writes the `u32` at offset 29. -/
def confirmed_timestamp (m : Message) (t : Nat) : Message :=
  { m with content := writeAt m.content 29 (writeLE t 4) }

/-- `MessageBuilder::data`: writes the payload at offset 34 and records
its length in `data_len`. -/
def data (m : Message) (d : List Nat) : Message :=
  { content := writeAt m.content 34 d, data_len := some d.length }

/-- `MessageBuilder::security_code`: writes the 8-byte code at
`content.len() - 8`. -/
def security_code (m : Message) (code : List Nat) : Message :=
  { m with content := writeAt m.content (m.content.length - 8) code }

end MessageBuilder

namespace Message

/-- `Message::length`: the `u16` length field. -/
def length (m : Message) : Nat := readLE m.content 0 2

/-- `Message::message_type`; the `.unwrap()` on an unknown code panics,
modelled by `none`. -/
def message_type (m : Message) : Option MessageType :=
  MessageType.tryFrom (readLE m.content 3 2)

/-- `Message::receiver`. -/
def receiver (m : Message) : Nat := readLE m.content 6 4

/-- `Message::sender`. -/
def sender (m : Message) : Nat := readLE m.content 10 4

/-- `Message::sequence_number`. -/
def sequence_number (m : Message) : Nat := readLE m.content 15 4

/-- `Message::confirmed_sequence_number`. -/
def confirmed_sequence_number (m : Message) : Nat := readLE m.content 19 4

/-- `Message::timestamp`. -/
def timestamp (m : Message) : Nat := readLE m.content 24 4

/-- `Message::confirmed_timestamp`. -/
def confirmed_timestamp (m : Message) : Nat := readLE m.content 29 4

/-- `Message::data`: `&content[34..34 + data_len.unwrap()]`.  `none`
models the panics (`unwrap` of `None`, slice out of bounds). -/
def data (m : Message) : Option (List Nat) :=
  match m.data_len with
  | none => none
  | some n => if 34 + n ≤ m.content.length then some (extract m.content 34 n) else none

/-- `Message::security_code`: the last 8 bytes of the buffer. -/
def security_code (m : Message) : List Nat :=
  extract m.content (m.content.length - 8) 8

/-- The full builder chain shared by all eight message constructors in
`src/message.rs` (they all call the `MessageBuilder` methods in exactly
this order, ending with a zero security code). -/
def build (len : Nat) (mt : MessageType) (receiver sender seq conf ts conf_ts : Nat)
    (d : List Nat) : Message :=
  MessageBuilder.security_code
    (MessageBuilder.data
      (MessageBuilder.confirmed_timestamp
        (MessageBuilder.timestamp
          (MessageBuilder.confirmed_sequence_number
            (MessageBuilder.sequence_number
              (MessageBuilder.sender
                (MessageBuilder.receiver
                  (MessageBuilder.message_type
                    (MessageBuilder.length Message.default len) mt)
                  receiver)
                sender)
              seq)
            conf)
          ts)
        conf_ts)
      d)
    (List.replicate 8 0)

/-- The 14-byte data area of `connection_request`/`connection_response`:
version `"0301"` at offset 0 and the `u16` `n_sendmax` at offset 5. -/
def handshakeData (n_sendmax : Nat) : List Nat :=
  writeAt (writeAt (List.replicate 14 0) 0 RASTA_VERSION) 5 (writeLE n_sendmax 2)

/-- `Message::connection_request` (without the `rand` feature the
initial sequence number is the constant 4). -/
def connection_request (receiver sender ts n_sendmax : Nat) : Message :=
  build 50 .ConnReq receiver sender 4 0 ts 0 (handshakeData n_sendmax)

/-- `Message::connection_response`: its sequence number is
`confirmed_sequence_number + 1` (u32 arithmetic). -/
def connection_response (receiver sender conf ts conf_ts n_sendmax : Nat) : Message :=
  build 50 .ConnResp receiver sender ((conf + 1) % 2 ^ 32) conf ts conf_ts
    (handshakeData n_sendmax)

/-- `Message::retransmission_request`. -/
def retransmission_request (receiver sender seq conf ts conf_ts : Nat) : Message :=
  build 36 .RetrReq receiver sender seq conf ts conf_ts []

/-- `Message::retransmission_response`. -/
def retransmission_response (receiver sender seq conf ts conf_ts : Nat) : Message :=
  build 36 .RetrResp receiver sender seq conf ts conf_ts []

/-- `Message::heartbeat`. -/
def heartbeat (receiver sender seq conf ts conf_ts : Nat) : Message :=
  build 36 .HB receiver sender seq conf ts conf_ts []

/-- `Message::disconnection_request`: length field 40 with an empty
data slice. -/
def disconnection_request (receiver sender seq conf ts conf_ts : Nat) : Message :=
  build 40 .DiscReq receiver sender seq conf ts conf_ts []

/-- `Message::data_message`: length field `(36 + data.len()) as u16`. -/
def data_message (receiver sender seq conf ts conf_ts : Nat) (d : List Nat) : Message :=
  build ((36 + d.length) % 2 ^ 16) .Data receiver sender seq conf ts conf_ts d

/-- `Message::retransmitted_data_message`. -/
def retransmitted_data_message (receiver sender seq conf ts conf_ts : Nat)
    (d : List Nat) : Message :=
  build ((36 + d.length) % 2 ^ 16) .RetrData receiver sender seq conf ts conf_ts d

/-- `impl From<&[u8]> for Message`: copies the buffer, reads the `u16`
length field and sets `data_len := length - 36`.  `none` models the
panics: indexing `content[0..2]` on a buffer of fewer than 2 bytes, and
the (debug-mode) `u16` subtraction overflow when the length field is
below 36.  No length-vs-buffer consistency check is performed. -/
def fromBytes (val : List Nat) : Option Message :=
  if val.length < 2 then none
  else
    let len := readLE val 0 2
    if len < 36 then none
    else some { content := val, data_len := some (len - 36) }

/-- `impl Deref for Message` / what `conn.write(&msg)` sends: the whole
`content` buffer. -/
def encode (m : Message) : List Nat := m.content

end Message

/-- `writeMany buf ws` applies a list of `(offset, bytes)` writes in
order.  The `Message.build` chain is definitionally such a fold; this
view is only used to organise the proofs. -/
def writeMany (buf : List Nat) (ws : List (Nat × List Nat)) : List Nat :=
  ws.foldl (fun b w => writeAt b w.1 w.2) buf

/-- The `(offset, bytes)` write sequence performed by the
`Message.build` chain before the final security-code write. -/
def Message.buildWrites (len : Nat) (mt : MessageType)
    (receiver sender seq conf ts conf_ts : Nat) (d : List Nat) :
    List (Nat × List Nat) :=
  [(0, writeLE len 2), (3, writeLE mt.code 2), (6, writeLE receiver 4),
   (10, writeLE sender 4), (15, writeLE seq 4), (19, writeLE conf 4),
   (24, writeLE ts 4), (29, writeLE conf_ts 4), (34, d)]

/-! ## The RaSTA connection model (`src/lib.rs`) -/

/-- `enum RastaError` (note: there is no `Malformed` variant). -/
inductive RastaError where
  | InvalidSeqNr | StateError | Timeout | VersionMismatch | IOError
  | Other (msg : String)
  deriving DecidableEq, Repr

/-- `enum RastaConnectionState`. -/
inductive RastaConnectionState where
  | Closed | Down | Start | Up
  deriving DecidableEq, Repr

/-- `struct RastaConnection` (without the TCP stream, which carries no
protocol state). -/
structure RastaConnection where
  state : RastaConnectionState
  id : Nat
  peer : Nat
  seq_nr : Option Nat
  confirmed_timestamp : Nat
  deriving DecidableEq, Repr

namespace RastaConnection

/-- `RastaConnection::try_new`: state `Down`, peer 0, no sequence
number, confirmed timestamp 0. -/
def try_new (id : Nat) : RastaConnection :=
  { state := .Down, id := id, peer := 0, seq_nr := none, confirmed_timestamp := 0 }

/-- `RastaConnection::next_seq_nr`: with `seq_nr = Some(n)` it stores
`n + 1` (u32 arithmetic) and returns `(n, n + 1)`; with `seq_nr = None`
it stores `0` and returns `(0, 1)`. -/
def next_seq_nr (c : RastaConnection) : (Nat × Nat) × RastaConnection :=
  match c.seq_nr with
  | some n => ((n, (n + 1) % 2 ^ 32), { c with seq_nr := some ((n + 1) % 2 ^ 32) })
  | none => ((0, 1), { c with seq_nr := some 0 })

/-- The reply-processing half of `RastaConnection::open_connection`
(after the `ConnReq` has been written to the stream and `response` has
been received).  Rust checks `response.data()[0..4]` against
`RASTA_VERSION` first — panicking (`none`) if the data length is
unavailable or below 4 — then, if the reply is a `ConnResp`, sets
state `Up`, adopts the reply's sequence number, timestamp and sender.
Note that the current state is never inspected. -/
def open_connection (c : RastaConnection) (response : Message) :
    Option (Except RastaError RastaConnection) :=
  match response.data with
  | none => none
  | some d =>
    if d.length < 4 then none
    else if extract d 0 4 ≠ RASTA_VERSION then some (.error .VersionMismatch)
    else
      match response.message_type with
      | none => none
      | some mt =>
        if mt = .ConnResp then
          some (.ok { c with
            state := .Up,
            seq_nr := some response.sequence_number,
            confirmed_timestamp := response.timestamp,
            peer := response.sender })
        else some (.ok c)

/-- `RastaConnection::send_data`: takes the next sequence-number pair
and builds a `Data` message; the connection state is not inspected.
`ts` stands in for the wall-clock `self.timestamp()`. -/
def send_data (c : RastaConnection) (ts : Nat) (d : List Nat) :
    Message × RastaConnection :=
  let r := c.next_seq_nr
  (Message.data_message c.peer c.id r.1.2 r.1.1 ts c.confirmed_timestamp d, r.2)

/-- The sending half of `RastaConnection::send_heartbeat` (builds the
`HB` message from the next sequence-number pair). -/
def send_heartbeat_msg (c : RastaConnection) (ts : Nat) :
    Message × RastaConnection :=
  let r := c.next_seq_nr
  (Message.heartbeat c.peer c.id r.1.2 r.1.1 ts c.confirmed_timestamp, r.2)

/-- The reply-processing half of `RastaConnection::send_heartbeat`:
on an `HB` reply, adopt the reply's sequence number and timestamp;
the state field is never written. -/
def send_heartbeat_reply (c : RastaConnection) (response : Message) :
    Option RastaConnection :=
  match response.message_type with
  | none => none
  | some mt =>
    if mt = .HB then
      some { c with
        seq_nr := some response.sequence_number,
        confirmed_timestamp := response.timestamp }
    else some c

/-- `RastaConnection::close_connection`: a no-op unless the state is
`Up`; otherwise sends a `DiscReq` built from the next sequence-number
pair and sets the state to `Closed`. -/
def close_connection (c : RastaConnection) (ts : Nat) :
    Option Message × RastaConnection :=
  if c.state ≠ .Up then (none, c)
  else
    let r := c.next_seq_nr
    (some (Message.disconnection_request c.peer c.id r.1.2 r.1.1 ts
      c.confirmed_timestamp), { r.2 with state := .Closed })

/-- `RastaConnection::receive_message` reads from the stream and parses;
it never writes any connection field, so its state effect is the
identity. -/
def receive_message (c : RastaConnection) (msg : Message) :
    Message × RastaConnection :=
  (msg, c)

/-- `N` iterated `send_data` calls (the `i`-th call sending `d i` at
wall-clock time `ts i`), keeping only the connection state. -/
def send_data_iter (ts : Nat → Nat) (d : Nat → List Nat) (c : RastaConnection) :
    Nat → RastaConnection
  | 0 => c
  | n + 1 => ((send_data_iter ts d c n).send_data (ts n) (d n)).2

end RastaConnection

/-! ## The RaSTA listener model (`src/lib.rs`) -/

/-- `struct RastaListener` (without the TCP listener and the
`Instant`-valued idle timer, which the modelled claims do not touch). -/
structure RastaListener where
  connections : List Nat
  id : Nat
  seq_nr : Option Nat
  deriving DecidableEq, Repr

namespace RastaListener

/-- The `MessageType::ConnReq` arm of `RastaListener::listen` (lines
201–215 of `src/lib.rs`, reached once the sequence-number and timeout
validations have passed): first `seq_nr` is replaced by the incoming
sequence number, then the `ConnResp` reply is built by
`Message::connection_response` with `confirmed_sequence_number`
`msg.sequence_number()`, `seq_nr` is replaced by
`msg.sequence_number() + 1` (u32 arithmetic) and the sender is pushed
onto the peer list.  `now` stands in for `self.timestamp()`. -/
def handleConnReq (l : RastaListener) (msg : Message) (now : Nat) :
    Message × RastaListener :=
  let l₀ := { l with seq_nr := some msg.sequence_number }
  let resp := Message.connection_response msg.sender msg.receiver
    msg.sequence_number now msg.timestamp N_SENDMAX
  (resp, { l₀ with
    seq_nr := some ((msg.sequence_number + 1) % 2 ^ 32),
    connections := l₀.connections ++ [msg.sender] })

end RastaListener

/-! ## The SCI telegram model (`sci-rs/src/lib.rs`) -/

/-- `enum SciError` (note: there is no `Malformed` variant; the
`Ls`/`P` payload wrappers are not needed by the modelled claims). -/
inductive SciError where
  | UnknownProtocol (p : Nat)
  | UnknownMessageType (m : Nat)
  | UnknownVersionCheckResult (v : Nat)
  | UnknownCloseReason (c : Nat)
  deriving DecidableEq, Repr

/-- `enum ProtocolType`. -/
inductive ProtocolType where
  | SCIProtocolAIS | SCIProtocolTDS | SCIProtocolLS | SCIProtocolP
  | SCIProtocolRBC | SCIProtocolLX | SCIProtocolTCS | SCIProtocolGIO
  | SCIProtocolELX
  deriving DecidableEq, Repr

/-- The `u8` discriminant of each `ProtocolType` value. -/
def ProtocolType.code : ProtocolType → Nat
  | .SCIProtocolAIS => 0x01
  | .SCIProtocolTDS => 0x20
  | .SCIProtocolLS => 0x30
  | .SCIProtocolP => 0x40
  | .SCIProtocolRBC => 0x50
  | .SCIProtocolLX => 0x60
  | .SCIProtocolTCS => 0x70
  | ProtocolType.SCIProtocolGIO => 0x90
  | .SCIProtocolELX => 0xC0

/-- `impl TryFrom<u8> for ProtocolType`: only TDS, P and LS are
accepted; anything else is `Err(UnknownProtocol)` (modelled `none`). -/
def ProtocolType.tryFrom (value : Nat) : Option ProtocolType :=
  if value = 0x20 then some .SCIProtocolTDS
  else if value = 0x40 then some .SCIProtocolP
  else if value = 0x30 then some .SCIProtocolLS
  else none

namespace SCIMessageType

/-- `SCIMessageType::try_as_sci_message_type_from`: the generic PDI
codes, returned unchanged; `none` models `Err(UnknownMessageType)`. -/
def try_as_sci_message_type_from (value : Nat) : Option Nat :=
  if value = 0x0024 ∨ value = 0x0025 ∨ value = 0x0021 ∨ value = 0x0022 ∨
     value = 0x0023 ∨ value = 0x0027 ∨ value = 0x0028 ∨ value = 0x0029 ∨
     value = 0x002A ∨ value = 0x002B ∨ value = 0x000C then some value
  else none

/-- `SCIMessageType::try_as_scip_message_type_from`. -/
def try_as_scip_message_type_from (value : Nat) : Option Nat :=
  if value = 0x0001 ∨ value = 0x000B then some value
  else try_as_sci_message_type_from value

/-- `SCIMessageType::try_as_scils_message_type_from`. -/
def try_as_scils_message_type_from (value : Nat) : Option Nat :=
  if value = 0x0001 ∨ value = 0x0002 ∨ value = 0x0003 ∨ value = 0x0004 then
    some value
  else try_as_sci_message_type_from value

/-- `SCIMessageType::try_as_scitds_message_type_from`. -/
def try_as_scitds_message_type_from (value : Nat) : Option Nat :=
  if value = 0x0001 ∨ value = 0x0002 ∨ value = 0x0003 ∨ value = 0x0008 ∨
     value = 0x0006 ∨ value = 0x0007 ∨ value = 0x0010 ∨ value = 0x0011 ∨
     value = 0x0012 ∨ value = 0x000B then some value
  else try_as_sci_message_type_from value

end SCIMessageType

/-- `str_to_sci_name`: pad a shorter name with `'_'` (0x5F) to 20
bytes, truncate a longer one to its first 20 bytes. -/
def str_to_sci_name (name : List Nat) : List Nat :=
  if name.length < 20 then name ++ List.replicate (20 - name.length) 95
  else name.take 20

/-- `struct SCIPayload { data: [u8; 85], used: usize }`. -/
structure SCIPayload where
  data : List Nat
  used : Nat
  deriving DecidableEq, Repr

/-- `impl Default for SCIPayload`. -/
def SCIPayload.default : SCIPayload :=
  { data := List.replicate 85 0, used := 0 }

/-- `SCIPayload::from_slice`; faithful for `data.length ≤ 85` (the Rust
code panics otherwise, and every modelled call site guards this). -/
def SCIPayload.from_slice (d : List Nat) : SCIPayload :=
  { data := d ++ List.replicate (85 - d.length) 0, used := d.length }

/-- `struct SCITelegram`.  The `sender`/`receiver` strings are modelled
by their byte sequences; the message type is the `u16` code inside the
`SCIMessageType` newtype. -/
structure SCITelegram where
  protocol_type : ProtocolType
  message_type : Nat
  sender : List Nat
  receiver : List Nat
  payload : SCIPayload
  deriving DecidableEq, Repr

namespace SCITelegram

/-- The protocol-scoped message-type resolver used on decode:
P → `try_as_scip_message_type_from`, LS → scils, TDS → scitds; reaching
any other protocol is the `unimplemented!()` panic (modelled `none`,
and unreachable because `ProtocolType::try_from` only produces these
three). -/
def resolve (pt : ProtocolType) (v : Nat) : Option Nat :=
  match pt with
  | .SCIProtocolP => SCIMessageType.try_as_scip_message_type_from v
  | .SCIProtocolLS => SCIMessageType.try_as_scils_message_type_from v
  | .SCIProtocolTDS => SCIMessageType.try_as_scitds_message_type_from v
  | _ => none

/-- `impl From<SCITelegram> for Vec<u8>`: protocol byte, `u16`
message type little-endian, the two 20-byte names, then — only when
`payload.used > 0` — the **entire** 85-byte payload array
(`Vec::from(val.payload.data)`). -/
def toBytes (t : SCITelegram) : List Nat :=
  [t.protocol_type.code] ++ writeLE t.message_type 2 ++
    str_to_sci_name t.sender ++ str_to_sci_name t.receiver ++
    (if t.payload.used > 0 then t.payload.data else [])

/-- `impl TryFrom<&[u8]> for SCITelegram`.  The Rust code performs no
length check: `value[0]` panics on an empty buffer, `value[1..3]` on
fewer than 3 bytes, `value[23..43]` on fewer than 43, and
`SCIPayload::from_slice(&value[43..])` on more than 128; each panic is
modelled as `none`.  `String::from_utf8_lossy` is modelled as the
identity on the name bytes. -/
def tryFromBytes (value : List Nat) : Option (Except SciError SCITelegram) :=
  if value.length < 1 then none
  else
    match ProtocolType.tryFrom (value.getD 0 0) with
    | none => some (.error (.UnknownProtocol (value.getD 0 0)))
    | some pt =>
      if value.length < 3 then none
      else
        match resolve pt (readLE value 1 2) with
        | none => some (.error (.UnknownMessageType (readLE value 1 2)))
        | some mt =>
          if value.length < 43 then none
          else if 128 < value.length then none
          else some (.ok {
            protocol_type := pt,
            message_type := mt,
            sender := extract value 3 20,
            receiver := extract value 23 20,
            payload := SCIPayload.from_slice (value.drop 43) })

end SCITelegram

instance {ε α : Type _} [DecidableEq ε] [DecidableEq α] :
    DecidableEq (Except ε α) := fun x y => by
  cases x with
  | error a =>
    cases y with
    | error b =>
      exact if h : a = b then .isTrue (h ▸ rfl) else .isFalse fun hc => h (by cases hc; rfl)
    | ok b => exact .isFalse fun hc => by cases hc
  | ok a =>
    cases y with
    | error b => exact .isFalse fun hc => by cases hc
    | ok b =>
      exact if h : a = b then .isTrue (h ▸ rfl) else .isFalse fun hc => h (by cases hc; rfl)

/-! ## SCI-TDS BCD encoding (`sci-rs/src/scitds.rs`) -/

/-- `to_bcd(digits: [u8; 4]) -> u16`: asserts that every digit is at
most 9 (`none` models the failed assertion), then packs two digits per
byte (`digits[0] << 4 | digits[1]`, u8 arithmetic) and combines the two
bytes big-endian. -/
def to_bcd (d0 d1 d2 d3 : Nat) : Option Nat :=
  if d0 ≤ 9 ∧ d1 ≤ 9 ∧ d2 ≤ 9 ∧ d3 ≤ 9 then
    some ((d0 * 16 % 256 + d1) % 256 * 256 + (d2 * 16 % 256 + d3) % 256)
  else none

/-! ## Concrete instances used by the examples, witnesses and
counterexamples -/

/-- A `ConnResp` as the listener would build it (receiver 1, sender 2,
confirmed sequence number 5 — hence sequence number 6 — timestamp 7,
confirmed timestamp 9). -/
def sampleConnResp : Message := Message.connection_response 1 2 5 7 9 65535

/-- A `ConnResp`-shaped message whose data area carries the version
bytes `"0302"` instead of `"0301"`. -/
def sampleMismatchResp : Message :=
  Message.build 50 .ConnResp 1 2 6 5 7 9 ([48, 51, 48, 50] ++ List.replicate 10 0)

/-- A `ConnReq` (receiver 1, sender 2, timestamp 100); without the
`rand` feature its initial sequence number is 4. -/
def sampleConnReq : Message := Message.connection_request 1 2 100 65535

/-- A concrete `DiscReq`. -/
def sampleDiscReq : Message := Message.disconnection_request 1 2 3 4 5 6

/-- A connection that has been closed. -/
def closedConn : RastaConnection :=
  ⟨.Closed, 42, 7, some 9, 11⟩

/-- The connection state reached from id 42 after processing
`sampleConnResp`. -/
def upConn42 : RastaConnection :=
  ⟨.Up, 42, 2, some 6, 7⟩

/-- A fresh listener with id 1. -/
def listener0 : RastaListener := ⟨[], 1, none⟩

/-- An SCI-P `ChangeLocation` telegram from "C" to "S" with payload
`[0x02]` (`used = 1`). -/
def sampleTelegram : SCITelegram :=
  ⟨.SCIProtocolP, 1, [67], [83], SCIPayload.from_slice [2]⟩

/-- What `sampleTelegram` decodes back to: padded names and a payload
whose `used` is the full 85. -/
def sampleDecodedTelegram : SCITelegram :=
  ⟨.SCIProtocolP, 1, [67] ++ List.replicate 19 95, [83] ++ List.replicate 19 95,
   ⟨[2] ++ List.replicate 84 0, 85⟩⟩

/-! ## Generic buffer lemmas -/

theorem writeLE_length (v k : Nat) : (writeLE v k).length = k := by
  induction k generalizing v with
  | zero => rfl
  | succ k ih => simp [writeLE, ih]

theorem writeAt_length (buf : List Nat) (off : Nat) (bs : List Nat)
    (h : off + bs.length ≤ buf.length) :
    (writeAt buf off bs).length = buf.length := by
  simp [writeAt]
  omega

theorem writeAt_getD (buf : List Nat) (off : Nat) (bs : List Nat)
    (h : off + bs.length ≤ buf.length) (i : Nat) :
    (writeAt buf off bs).getD i 0 =
      if i < off then buf.getD i 0
      else if i < off + bs.length then bs.getD (i - off) 0
      else buf.getD i 0 := by
  have htake : (buf.take off).length = off := by
    simp [List.length_take]
    omega
  have htb : (buf.take off ++ bs).length = off + bs.length := by
    simp [htake]
  simp only [writeAt, List.getD_eq_getElem?_getD]
  by_cases h1 : i < off
  · rw [List.getElem?_append_left (by rw [htb]; omega),
      List.getElem?_append_left (by rw [htake]; omega),
      List.getElem?_take, if_pos h1, if_pos h1]
  · by_cases h2 : i < off + bs.length
    · rw [List.getElem?_append_left (by rw [htb]; omega),
        List.getElem?_append_right (by rw [htake]; omega), htake,
        if_neg h1, if_pos h2]
    · rw [List.getElem?_append_right (by rw [htb]; omega), htb,
        List.getElem?_drop]
      have he : off + bs.length + (i - (off + bs.length)) = i := by omega
      rw [he, if_neg h1, if_neg h2]

theorem getD_writeAt_disjoint (buf : List Nat) (off : Nat) (bs : List Nat) (i : Nat)
    (h : off + bs.length ≤ buf.length) (hdisj : i < off ∨ off + bs.length ≤ i) :
    (writeAt buf off bs).getD i 0 = buf.getD i 0 := by
  rw [writeAt_getD buf off bs h i]
  rcases hdisj with h1 | h1
  · rw [if_pos h1]
  · rw [if_neg (by omega), if_neg (by omega)]

theorem readLE_congr (k : Nat) (l₁ l₂ : List Nat) (a₁ a₂ : Nat)
    (h : ∀ j, j < k → l₁.getD (a₁ + j) 0 = l₂.getD (a₂ + j) 0) :
    readLE l₁ a₁ k = readLE l₂ a₂ k := by
  induction k generalizing a₁ a₂ with
  | zero => rfl
  | succ k ih =>
    simp only [readLE]
    have h0 := h 0 (by omega)
    simp only [Nat.add_zero] at h0
    rw [h0, ih (a₁ + 1) (a₂ + 1) fun j hj => by
      have h' := h (j + 1) (by omega)
      have e1 : a₁ + (j + 1) = a₁ + 1 + j := by omega
      have e2 : a₂ + (j + 1) = a₂ + 1 + j := by omega
      rw [e1, e2] at h'
      exact h']

theorem readLE_writeAt_disjoint (buf : List Nat) (off : Nat) (bs : List Nat) (a k : Nat)
    (h : off + bs.length ≤ buf.length) (hdisj : a + k ≤ off ∨ off + bs.length ≤ a) :
    readLE (writeAt buf off bs) a k = readLE buf a k := by
  refine readLE_congr k _ _ a a fun j hj => ?_
  exact getD_writeAt_disjoint buf off bs (a + j) h (by omega)

theorem readLE_writeLE (v k : Nat) : readLE (writeLE v k) 0 k = v % 256 ^ k := by
  induction k generalizing v with
  | zero => simp [readLE, Nat.mod_one]
  | succ k ih =>
    simp only [readLE, writeLE, List.getD_cons_zero]
    have htail : readLE (v % 256 :: writeLE (v / 256) k) (0 + 1) k
        = readLE (writeLE (v / 256) k) 0 k := by
      refine readLE_congr k _ _ 1 0 fun j hj => ?_
      rw [Nat.add_comm 1 j, List.getD_cons_succ, Nat.zero_add]
    rw [htail, ih]
    rw [pow_succ, Nat.mul_comm (256 ^ k) 256, Nat.mod_mul]

theorem readLE_writeAt_self (buf : List Nat) (off v k : Nat)
    (h : off + k ≤ buf.length) :
    readLE (writeAt buf off (writeLE v k)) off k = v % 256 ^ k := by
  have hk : (writeLE v k).length = k := writeLE_length v k
  have hmain : readLE (writeAt buf off (writeLE v k)) off k
      = readLE (writeLE v k) 0 k := by
    refine readLE_congr k _ _ off 0 fun j hj => ?_
    rw [writeAt_getD buf off (writeLE v k) (by omega) (off + j)]
    rw [if_neg (by omega), if_pos (by omega), Nat.zero_add, Nat.add_sub_cancel_left]
  rw [hmain, readLE_writeLE]

theorem readLE_lt (l : List Nat) (off k : Nat) (h : ∀ x ∈ l, x < 256) :
    readLE l off k < 256 ^ k := by
  induction k generalizing off with
  | zero => simp [readLE]
  | succ k ih =>
    have hhd : l.getD off 0 < 256 := by
      rcases lt_or_ge off l.length with ho | ho
      · rw [List.getD_eq_getElem l 0 ho]
        exact h _ (l.getElem_mem ho)
      · rw [List.getD_eq_default l 0 ho]
        omega
    have htl := ih (off + 1)
    have h256 : (0:Nat) < 256 ^ k := Nat.pos_pow_of_pos k (by omega)
    calc readLE l off (k + 1) = l.getD off 0 + 256 * readLE l (off + 1) k := rfl
      _ ≤ 255 + 256 * (256 ^ k - 1) := by
          have := Nat.mul_le_mul_left 256 (Nat.le_sub_one_of_lt htl)
          omega
      _ < 256 ^ (k + 1) := by
          rw [pow_succ, Nat.mul_comm (256 ^ k) 256]
          have : 256 * (256 ^ k - 1) + 256 = 256 * 256 ^ k := by
            rw [Nat.mul_sub_one]
            omega
          omega

theorem writeMany_cons (buf : List Nat) (w : Nat × List Nat) (ws : List (Nat × List Nat)) :
    writeMany buf (w :: ws) = writeMany (writeAt buf w.1 w.2) ws := rfl

theorem writeMany_append (buf : List Nat) (ws₁ ws₂ : List (Nat × List Nat)) :
    writeMany buf (ws₁ ++ ws₂) = writeMany (writeMany buf ws₁) ws₂ := by
  simp [writeMany, List.foldl_append]

theorem writeMany_length (buf : List Nat) (ws : List (Nat × List Nat))
    (h : ∀ w ∈ ws, w.1 + w.2.length ≤ buf.length) :
    (writeMany buf ws).length = buf.length := by
  induction ws generalizing buf with
  | nil => rfl
  | cons w ws ih =>
    have hw : w.1 + w.2.length ≤ buf.length := h w (List.mem_cons_self w ws)
    have hlen : (writeAt buf w.1 w.2).length = buf.length := writeAt_length _ _ _ hw
    rw [writeMany_cons, ih (writeAt buf w.1 w.2) fun w' hw' => by
      rw [hlen]
      exact h w' (List.mem_cons_of_mem w hw'), hlen]

theorem readLE_writeMany_disjoint (buf : List Nat) (ws : List (Nat × List Nat)) (a k : Nat)
    (h : ∀ w ∈ ws, w.1 + w.2.length ≤ buf.length)
    (hdisj : ∀ w ∈ ws, a + k ≤ w.1 ∨ w.1 + w.2.length ≤ a) :
    readLE (writeMany buf ws) a k = readLE buf a k := by
  induction ws generalizing buf with
  | nil => rfl
  | cons w ws ih =>
    have hw := h w (List.mem_cons_self w ws)
    have hlen := writeAt_length buf w.1 w.2 hw
    rw [writeMany_cons,
      ih (writeAt buf w.1 w.2)
        (fun w' hw' => by
          rw [hlen]
          exact h w' (List.mem_cons_of_mem w hw'))
        (fun w' hw' => hdisj w' (List.mem_cons_of_mem w hw')),
      readLE_writeAt_disjoint buf w.1 w.2 a k hw (hdisj w (List.mem_cons_self w ws))]

theorem getD_writeMany_disjoint (buf : List Nat) (ws : List (Nat × List Nat)) (i : Nat)
    (h : ∀ w ∈ ws, w.1 + w.2.length ≤ buf.length)
    (hdisj : ∀ w ∈ ws, i < w.1 ∨ w.1 + w.2.length ≤ i) :
    (writeMany buf ws).getD i 0 = buf.getD i 0 := by
  induction ws generalizing buf with
  | nil => rfl
  | cons w ws ih =>
    have hw := h w (List.mem_cons_self w ws)
    have hlen := writeAt_length buf w.1 w.2 hw
    rw [writeMany_cons,
      ih (writeAt buf w.1 w.2)
        (fun w' hw' => by
          rw [hlen]
          exact h w' (List.mem_cons_of_mem w hw'))
        (fun w' hw' => hdisj w' (List.mem_cons_of_mem w hw')),
      getD_writeAt_disjoint buf w.1 w.2 i hw (hdisj w (List.mem_cons_self w ws))]

theorem readLE_writeMany_self (buf : List Nat) (ws₁ ws₂ : List (Nat × List Nat))
    (off v k : Nat)
    (h1 : ∀ w ∈ ws₁, w.1 + w.2.length ≤ buf.length)
    (hoff : off + k ≤ buf.length)
    (h2 : ∀ w ∈ ws₂, w.1 + w.2.length ≤ buf.length)
    (hdisj : ∀ w ∈ ws₂, off + k ≤ w.1 ∨ w.1 + w.2.length ≤ off) :
    readLE (writeMany buf (ws₁ ++ (off, writeLE v k) :: ws₂)) off k = v % 256 ^ k := by
  have hl1 : (writeMany buf ws₁).length = buf.length := writeMany_length buf ws₁ h1
  have hmid : (writeAt (writeMany buf ws₁) off (writeLE v k)).length = buf.length := by
    rw [writeAt_length _ _ _ (by rw [hl1, writeLE_length]; exact hoff), hl1]
  rw [writeMany_append, writeMany_cons,
    readLE_writeMany_disjoint _ ws₂ off k (fun w hw => by rw [hmid]; exact h2 w hw) hdisj,
    readLE_writeAt_self _ off v k (by rw [hl1]; exact hoff)]

theorem extract_as_getD (l : List Nat) (off n : Nat) (h : off + n ≤ l.length) :
    extract l off n = (List.range n).map fun j => l.getD (off + j) 0 := by
  induction n with
  | zero => simp [extract]
  | succ n ih =>
    have hdn : (l.drop off)[n]? = some (l.getD (off + n) 0) := by
      rw [List.getElem?_drop]
      have hb : off + n < l.length := by omega
      rw [List.getElem?_eq_getElem hb, List.getD_eq_getElem l 0 hb]
    rw [extract, List.take_succ, ← extract, ih (by omega), hdn, List.range_succ]
    simp

/-! ## Field lemmas for the message-builder chain -/

theorem build_content_writeMany (L : Nat) (M : MessageType) (R S Q C T CT : Nat)
    (d : List Nat) :
    (Message.build L M R S Q C T CT d).content =
      writeAt (writeMany (List.replicate 1024 0) (Message.buildWrites L M R S Q C T CT d))
        ((writeMany (List.replicate 1024 0)
            (Message.buildWrites L M R S Q C T CT d)).length - 8)
        (List.replicate 8 0) := rfl

theorem buildWrites_bounds (L : Nat) (M : MessageType) (R S Q C T CT : Nat)
    (d : List Nat) (hd : d.length ≤ 990) :
    ∀ w ∈ Message.buildWrites L M R S Q C T CT d,
      w.1 + w.2.length ≤ (List.replicate 1024 0 : List Nat).length := by
  intro w hw
  simp only [Message.buildWrites, List.mem_cons, List.not_mem_nil, or_false] at hw
  rcases hw with rfl | rfl | rfl | rfl | rfl | rfl | rfl | rfl | rfl <;>
    simp [writeLE_length] <;> omega

theorem build_B9_length (L : Nat) (M : MessageType) (R S Q C T CT : Nat)
    (d : List Nat) (hd : d.length ≤ 990) :
    (writeMany (List.replicate 1024 0)
      (Message.buildWrites L M R S Q C T CT d)).length = 1024 := by
  rw [writeMany_length _ _ (buildWrites_bounds L M R S Q C T CT d hd)]
  simp

theorem build_content_length (L : Nat) (M : MessageType) (R S Q C T CT : Nat)
    (d : List Nat) (hd : d.length ≤ 990) :
    (Message.build L M R S Q C T CT d).content.length = 1024 := by
  have hB9 := build_B9_length L M R S Q C T CT d hd
  rw [build_content_writeMany, writeAt_length _ _ _ (by rw [hB9]; simp), hB9]

theorem build_data_len (L : Nat) (M : MessageType) (R S Q C T CT : Nat)
    (d : List Nat) :
    (Message.build L M R S Q C T CT d).data_len = some d.length := rfl

theorem build_length_field (L : Nat) (M : MessageType) (R S Q C T CT : Nat)
    (d : List Nat) (hd : d.length ≤ 990) :
    (Message.build L M R S Q C T CT d).length = L % 2 ^ 16 := by
  have hB9 := build_B9_length L M R S Q C T CT d hd
  simp only [Message.length, build_content_writeMany]
  rw [readLE_writeAt_disjoint _ _ _ _ _ (by rw [hB9]; simp) (Or.inl (by rw [hB9]; omega)),
    show (2 ^ 16 : Nat) = 256 ^ 2 by norm_num]
  exact readLE_writeMany_self (List.replicate 1024 0) []
    [(3, writeLE M.code 2), (6, writeLE R 4), (10, writeLE S 4), (15, writeLE Q 4),
     (19, writeLE C 4), (24, writeLE T 4), (29, writeLE CT 4), (34, d)]
    0 L 2
    (fun w hw => by simp at hw)
    (by simp)
    (fun w hw => by
      simp only [List.mem_cons, List.not_mem_nil, or_false] at hw
      rcases hw with rfl | rfl | rfl | rfl | rfl | rfl | rfl | rfl <;>
        simp [writeLE_length] <;> omega)
    (fun w hw => by
      simp only [List.mem_cons, List.not_mem_nil, or_false] at hw
      rcases hw with rfl | rfl | rfl | rfl | rfl | rfl | rfl | rfl <;>
        simp [writeLE_length])

theorem build_message_type_raw (L : Nat) (M : MessageType) (R S Q C T CT : Nat)
    (d : List Nat) (hd : d.length ≤ 990) :
    readLE (Message.build L M R S Q C T CT d).content 3 2 = M.code % 2 ^ 16 := by
  have hB9 := build_B9_length L M R S Q C T CT d hd
  rw [build_content_writeMany,
    readLE_writeAt_disjoint _ _ _ _ _ (by rw [hB9]; simp) (Or.inl (by rw [hB9]; omega)),
    show (2 ^ 16 : Nat) = 256 ^ 2 by norm_num]
  exact readLE_writeMany_self (List.replicate 1024 0) [(0, writeLE L 2)]
    [(6, writeLE R 4), (10, writeLE S 4), (15, writeLE Q 4),
     (19, writeLE C 4), (24, writeLE T 4), (29, writeLE CT 4), (34, d)]
    3 M.code 2
    (fun w hw => by
      simp only [List.mem_cons, List.not_mem_nil, or_false] at hw
      rcases hw with rfl <;> simp [writeLE_length])
    (by simp)
    (fun w hw => by
      simp only [List.mem_cons, List.not_mem_nil, or_false] at hw
      rcases hw with rfl | rfl | rfl | rfl | rfl | rfl | rfl <;>
        simp [writeLE_length] <;> omega)
    (fun w hw => by
      simp only [List.mem_cons, List.not_mem_nil, or_false] at hw
      rcases hw with rfl | rfl | rfl | rfl | rfl | rfl | rfl <;>
        simp [writeLE_length])

theorem MessageType.code_lt (M : MessageType) : M.code < 2 ^ 16 := by
  cases M <;> decide

theorem MessageType.tryFrom_code (M : MessageType) :
    MessageType.tryFrom M.code = some M := by
  cases M <;> decide

theorem build_message_type (L : Nat) (M : MessageType) (R S Q C T CT : Nat)
    (d : List Nat) (hd : d.length ≤ 990) :
    (Message.build L M R S Q C T CT d).message_type = some M := by
  simp only [Message.message_type]
  rw [build_message_type_raw L M R S Q C T CT d hd,
    Nat.mod_eq_of_lt (MessageType.code_lt M), MessageType.tryFrom_code]

theorem build_receiver (L : Nat) (M : MessageType) (R S Q C T CT : Nat)
    (d : List Nat) (hd : d.length ≤ 990) :
    (Message.build L M R S Q C T CT d).receiver = R % 2 ^ 32 := by
  have hB9 := build_B9_length L M R S Q C T CT d hd
  simp only [Message.receiver, build_content_writeMany]
  rw [readLE_writeAt_disjoint _ _ _ _ _ (by rw [hB9]; simp) (Or.inl (by rw [hB9]; omega)),
    show (2 ^ 32 : Nat) = 256 ^ 4 by norm_num]
  exact readLE_writeMany_self (List.replicate 1024 0)
    [(0, writeLE L 2), (3, writeLE M.code 2)]
    [(10, writeLE S 4), (15, writeLE Q 4),
     (19, writeLE C 4), (24, writeLE T 4), (29, writeLE CT 4), (34, d)]
    6 R 4
    (fun w hw => by
      simp only [List.mem_cons, List.not_mem_nil, or_false] at hw
      rcases hw with rfl | rfl <;> simp [writeLE_length])
    (by simp)
    (fun w hw => by
      simp only [List.mem_cons, List.not_mem_nil, or_false] at hw
      rcases hw with rfl | rfl | rfl | rfl | rfl | rfl <;>
        simp [writeLE_length] <;> omega)
    (fun w hw => by
      simp only [List.mem_cons, List.not_mem_nil, or_false] at hw
      rcases hw with rfl | rfl | rfl | rfl | rfl | rfl <;>
        simp [writeLE_length])

theorem build_sender (L : Nat) (M : MessageType) (R S Q C T CT : Nat)
    (d : List Nat) (hd : d.length ≤ 990) :
    (Message.build L M R S Q C T CT d).sender = S % 2 ^ 32 := by
  have hB9 := build_B9_length L M R S Q C T CT d hd
  simp only [Message.sender, build_content_writeMany]
  rw [readLE_writeAt_disjoint _ _ _ _ _ (by rw [hB9]; simp) (Or.inl (by rw [hB9]; omega)),
    show (2 ^ 32 : Nat) = 256 ^ 4 by norm_num]
  exact readLE_writeMany_self (List.replicate 1024 0)
    [(0, writeLE L 2), (3, writeLE M.code 2), (6, writeLE R 4)]
    [(15, writeLE Q 4), (19, writeLE C 4), (24, writeLE T 4), (29, writeLE CT 4), (34, d)]
    10 S 4
    (fun w hw => by
      simp only [List.mem_cons, List.not_mem_nil, or_false] at hw
      rcases hw with rfl | rfl | rfl <;> simp [writeLE_length])
    (by simp)
    (fun w hw => by
      simp only [List.mem_cons, List.not_mem_nil, or_false] at hw
      rcases hw with rfl | rfl | rfl | rfl | rfl <;>
        simp [writeLE_length] <;> omega)
    (fun w hw => by
      simp only [List.mem_cons, List.not_mem_nil, or_false] at hw
      rcases hw with rfl | rfl | rfl | rfl | rfl <;>
        simp [writeLE_length])

theorem build_sequence_number (L : Nat) (M : MessageType) (R S Q C T CT : Nat)
    (d : List Nat) (hd : d.length ≤ 990) :
    (Message.build L M R S Q C T CT d).sequence_number = Q % 2 ^ 32 := by
  have hB9 := build_B9_length L M R S Q C T CT d hd
  simp only [Message.sequence_number, build_content_writeMany]
  rw [readLE_writeAt_disjoint _ _ _ _ _ (by rw [hB9]; simp) (Or.inl (by rw [hB9]; omega)),
    show (2 ^ 32 : Nat) = 256 ^ 4 by norm_num]
  exact readLE_writeMany_self (List.replicate 1024 0)
    [(0, writeLE L 2), (3, writeLE M.code 2), (6, writeLE R 4), (10, writeLE S 4)]
    [(19, writeLE C 4), (24, writeLE T 4), (29, writeLE CT 4), (34, d)]
    15 Q 4
    (fun w hw => by
      simp only [List.mem_cons, List.not_mem_nil, or_false] at hw
      rcases hw with rfl | rfl | rfl | rfl <;> simp [writeLE_length])
    (by simp)
    (fun w hw => by
      simp only [List.mem_cons, List.not_mem_nil, or_false] at hw
      rcases hw with rfl | rfl | rfl | rfl <;>
        simp [writeLE_length] <;> omega)
    (fun w hw => by
      simp only [List.mem_cons, List.not_mem_nil, or_false] at hw
      rcases hw with rfl | rfl | rfl | rfl <;>
        simp [writeLE_length])

theorem build_confirmed_sequence_number (L : Nat) (M : MessageType)
    (R S Q C T CT : Nat) (d : List Nat) (hd : d.length ≤ 990) :
    (Message.build L M R S Q C T CT d).confirmed_sequence_number = C % 2 ^ 32 := by
  have hB9 := build_B9_length L M R S Q C T CT d hd
  simp only [Message.confirmed_sequence_number, build_content_writeMany]
  rw [readLE_writeAt_disjoint _ _ _ _ _ (by rw [hB9]; simp) (Or.inl (by rw [hB9]; omega)),
    show (2 ^ 32 : Nat) = 256 ^ 4 by norm_num]
  exact readLE_writeMany_self (List.replicate 1024 0)
    [(0, writeLE L 2), (3, writeLE M.code 2), (6, writeLE R 4), (10, writeLE S 4),
     (15, writeLE Q 4)]
    [(24, writeLE T 4), (29, writeLE CT 4), (34, d)]
    19 C 4
    (fun w hw => by
      simp only [List.mem_cons, List.not_mem_nil, or_false] at hw
      rcases hw with rfl | rfl | rfl | rfl | rfl <;> simp [writeLE_length])
    (by simp)
    (fun w hw => by
      simp only [List.mem_cons, List.not_mem_nil, or_false] at hw
      rcases hw with rfl | rfl | rfl <;> simp [writeLE_length] <;> omega)
    (fun w hw => by
      simp only [List.mem_cons, List.not_mem_nil, or_false] at hw
      rcases hw with rfl | rfl | rfl <;> simp [writeLE_length])

theorem build_timestamp (L : Nat) (M : MessageType) (R S Q C T CT : Nat)
    (d : List Nat) (hd : d.length ≤ 990) :
    (Message.build L M R S Q C T CT d).timestamp = T % 2 ^ 32 := by
  have hB9 := build_B9_length L M R S Q C T CT d hd
  simp only [Message.timestamp, build_content_writeMany]
  rw [readLE_writeAt_disjoint _ _ _ _ _ (by rw [hB9]; simp) (Or.inl (by rw [hB9]; omega)),
    show (2 ^ 32 : Nat) = 256 ^ 4 by norm_num]
  exact readLE_writeMany_self (List.replicate 1024 0)
    [(0, writeLE L 2), (3, writeLE M.code 2), (6, writeLE R 4), (10, writeLE S 4),
     (15, writeLE Q 4), (19, writeLE C 4)]
    [(29, writeLE CT 4), (34, d)]
    24 T 4
    (fun w hw => by
      simp only [List.mem_cons, List.not_mem_nil, or_false] at hw
      rcases hw with rfl | rfl | rfl | rfl | rfl | rfl <;> simp [writeLE_length])
    (by simp)
    (fun w hw => by
      simp only [List.mem_cons, List.not_mem_nil, or_false] at hw
      rcases hw with rfl | rfl <;> simp [writeLE_length] <;> omega)
    (fun w hw => by
      simp only [List.mem_cons, List.not_mem_nil, or_false] at hw
      rcases hw with rfl | rfl <;> simp [writeLE_length])

theorem build_confirmed_timestamp (L : Nat) (M : MessageType) (R S Q C T CT : Nat)
    (d : List Nat) (hd : d.length ≤ 990) :
    (Message.build L M R S Q C T CT d).confirmed_timestamp = CT % 2 ^ 32 := by
  have hB9 := build_B9_length L M R S Q C T CT d hd
  simp only [Message.confirmed_timestamp, build_content_writeMany]
  rw [readLE_writeAt_disjoint _ _ _ _ _ (by rw [hB9]; simp) (Or.inl (by rw [hB9]; omega)),
    show (2 ^ 32 : Nat) = 256 ^ 4 by norm_num]
  exact readLE_writeMany_self (List.replicate 1024 0)
    [(0, writeLE L 2), (3, writeLE M.code 2), (6, writeLE R 4), (10, writeLE S 4),
     (15, writeLE Q 4), (19, writeLE C 4), (24, writeLE T 4)]
    [(34, d)]
    29 CT 4
    (fun w hw => by
      simp only [List.mem_cons, List.not_mem_nil, or_false] at hw
      rcases hw with rfl | rfl | rfl | rfl | rfl | rfl | rfl <;> simp [writeLE_length])
    (by simp)
    (fun w hw => by
      simp only [List.mem_cons, List.not_mem_nil, or_false] at hw
      rcases hw with rfl <;> simp [writeLE_length] <;> omega)
    (fun w hw => by
      simp only [List.mem_cons, List.not_mem_nil, or_false] at hw
      rcases hw with rfl <;> simp [writeLE_length])

theorem build_getD_untouched (L : Nat) (M : MessageType) (R S Q C T CT : Nat)
    (i : Nat) (h34 : 34 ≤ i) (h1016 : i < 1016) :
    (Message.build L M R S Q C T CT []).content.getD i 0 = 0 := by
  have hb := buildWrites_bounds L M R S Q C T CT [] (by simp)
  have hB9 := build_B9_length L M R S Q C T CT [] (by simp)
  rw [build_content_writeMany,
    getD_writeAt_disjoint _ _ _ i (by rw [hB9]; simp) (Or.inl (by rw [hB9]; omega)),
    getD_writeMany_disjoint _ _ i hb (fun w hw => by
      simp only [Message.buildWrites, List.mem_cons, List.not_mem_nil, or_false] at hw
      rcases hw with rfl | rfl | rfl | rfl | rfl | rfl | rfl | rfl | rfl <;>
        refine Or.inr ?_ <;> simp [writeLE_length] <;> omega)]
  rw [List.getD_eq_getElem?_getD, List.getElem?_replicate]
  split <;> rfl

example : (Message.heartbeat 1 2 3 4 5 6).content.length = 1024 := by decide
example : (Message.heartbeat 1 2 3 4 5 6).length = 36 := by decide
example : (Message.disconnection_request 1 2 3 4 5 6).data = some [] := by decide
example :
    Message.fromBytes (Message.encode (Message.disconnection_request 1 2 3 4 5 6))
      = some { content := (Message.disconnection_request 1 2 3 4 5 6).content,
               data_len := some 4 } := by decide
example : to_bcd 1 2 3 4 = some 0x1234 := by decide
example : (SCITelegram.toBytes
    { protocol_type := .SCIProtocolP, message_type := 1, sender := [67],
      receiver := [83], payload := SCIPayload.from_slice [2] }).length = 128 := by decide

/-! ## The claims -/

/-- C9: for four decimal digits `[d0,d1,d2,d3]` (each at most 9),
`to_bcd` returns `d0·4096 + d1·256 + d2·16 + d3`; any input containing
a value greater than 9 violates the digit-range assertion (modelled as
`none`). -/
theorem C9_to_bcd (d0 d1 d2 d3 : Nat) :
    (d0 ≤ 9 ∧ d1 ≤ 9 ∧ d2 ≤ 9 ∧ d3 ≤ 9 →
      to_bcd d0 d1 d2 d3 = some (d0 * 4096 + d1 * 256 + d2 * 16 + d3)) ∧
    (9 < d0 ∨ 9 < d1 ∨ 9 < d2 ∨ 9 < d3 → to_bcd d0 d1 d2 d3 = none) := by
  constructor
  · rintro ⟨h0, h1, h2, h3⟩
    rw [to_bcd, if_pos ⟨h0, h1, h2, h3⟩]
    congr 1
    omega
  · intro h
    rw [to_bcd, if_neg (by omega)]

/-- Witness for C9 at the spec's example inputs. -/
theorem C9_to_bcd_witness :
    to_bcd 0 0 0 1 = some 1 ∧ to_bcd 0 0 1 1 = some 17 ∧
    to_bcd 0 1 1 1 = some 273 ∧ to_bcd 1 1 1 1 = some 4369 ∧
    to_bcd 1 2 3 4 = some 4660 ∧ to_bcd 10 0 0 0 = none :=
  ⟨(C9_to_bcd 0 0 0 1).1 (by omega), (C9_to_bcd 0 0 1 1).1 (by omega),
   (C9_to_bcd 0 1 1 1).1 (by omega), (C9_to_bcd 1 1 1 1).1 (by omega),
   (C9_to_bcd 1 2 3 4).1 (by omega), (C9_to_bcd 10 0 0 0).2 (by omega)⟩

/-- C10: with `seq_nr` unset, the first `next_seq_nr` returns `(0, 1)`
but stores 0, so the second call returns `(0, 1)` again — the first two
outbound data messages both carry sequence number 1 and confirmed
sequence number 0; with `seq_nr = Some n` it returns `(n, n + 1)` and
stores `n + 1` (u32 arithmetic); and neither `send_data` nor
`send_heartbeat` inspects or changes the connection state. -/
theorem C10_next_seq_nr (c : RastaConnection) (ts1 ts2 : Nat) (d1 d2 : List Nat)
    (h : c.seq_nr = none) (hd1 : d1.length ≤ 990) (hd2 : d2.length ≤ 990) :
    (c.next_seq_nr = ((0, 1), { c with seq_nr := some 0 })) ∧
    (∀ n, n < 2 ^ 32 → ∀ c' : RastaConnection, c'.seq_nr = some n →
      c'.next_seq_nr.1 = (n, (n + 1) % 2 ^ 32) ∧
      c'.next_seq_nr.2 = { c' with seq_nr := some ((n + 1) % 2 ^ 32) }) ∧
    ((c.send_data ts1 d1).1.sequence_number = 1 ∧
     (c.send_data ts1 d1).1.confirmed_sequence_number = 0 ∧
     (c.send_data ts1 d1).2.seq_nr = some 0 ∧
     ((c.send_data ts1 d1).2.send_data ts2 d2).1.sequence_number = 1 ∧
     ((c.send_data ts1 d1).2.send_data ts2 d2).1.confirmed_sequence_number = 0 ∧
     ((c.send_data ts1 d1).2.send_data ts2 d2).2.seq_nr = some 1) ∧
    (∀ st : RastaConnectionState,
      (RastaConnection.send_data { c with state := st } ts1 d1)
        = ((c.send_data ts1 d1).1, { (c.send_data ts1 d1).2 with state := st }) ∧
      (RastaConnection.send_heartbeat_msg { c with state := st } ts1)
        = ((c.send_heartbeat_msg ts1).1, { (c.send_heartbeat_msg ts1).2 with state := st })) := by
  obtain ⟨cs, cid, cp, cseq, cct⟩ := c
  simp only at h
  subst h
  refine ⟨rfl, ?_, ⟨?_, ?_, rfl, ?_, ?_, rfl⟩, ?_⟩
  · intro n hn c' hc'
    obtain ⟨cs', cid', cp', cseq', cct'⟩ := c'
    simp only at hc'
    subst hc'
    exact ⟨rfl, rfl⟩
  · exact (build_sequence_number _ .Data cp cid 1 0 ts1 cct d1 hd1).trans (by norm_num)
  · exact (build_confirmed_sequence_number _ .Data cp cid 1 0 ts1 cct d1 hd1).trans
      (by norm_num)
  · exact (build_sequence_number _ .Data cp cid 1 0 ts2 cct d2 hd2).trans (by norm_num)
  · exact (build_confirmed_sequence_number _ .Data cp cid 1 0 ts2 cct d2 hd2).trans
      (by norm_num)
  · intro st
    exact ⟨rfl, rfl⟩

/-- Witness for C10 on a fresh connection. -/
theorem C10_next_seq_nr_witness :
    (RastaConnection.try_new 5).next_seq_nr
        = ((0, 1), { RastaConnection.try_new 5 with seq_nr := some 0 }) ∧
    ((RastaConnection.try_new 5).send_data 11 [1]).1.sequence_number = 1 ∧
    (((RastaConnection.try_new 5).send_data 11 [1]).2.send_data 12 [2]).1.sequence_number = 1 := by
  have h := C10_next_seq_nr (RastaConnection.try_new 5) 11 12 [1] [2]
    (by decide) (by decide) (by decide)
  exact ⟨h.1, h.2.2.1.1, h.2.2.1.2.2.2.1⟩

/-- C4: if the reply to a `ConnReq` is a `ConnResp` whose data starts
with the version bytes `"0301"`, `open_connection` sets the state to
`Up`, the peer to the reply's sender, `seq_nr` to the reply's sequence
number and `confirmed_timestamp` to the reply's timestamp; if the
version bytes differ, it fails with `VersionMismatch`. -/
theorem C4_open_connection (c : RastaConnection) (reply : Message) (dta : List Nat)
    (hdata : reply.data = some dta) (hlen : 4 ≤ dta.length) :
    (extract dta 0 4 = RASTA_VERSION → reply.message_type = some .ConnResp →
      c.open_connection reply = some (.ok (RastaConnection.mk .Up c.id reply.sender
        (some reply.sequence_number) reply.timestamp))) ∧
    (extract dta 0 4 ≠ RASTA_VERSION →
      c.open_connection reply = some (.error .VersionMismatch)) := by
  constructor
  · intro hv hmt
    simp [RastaConnection.open_connection, hdata, hmt, hv, Nat.not_lt.mpr hlen]
  · intro hv
    simp [RastaConnection.open_connection, hdata, hv, Nat.not_lt.mpr hlen]

/-- Witness for C4: a fresh connection accepting `sampleConnResp`
(version `"0301"`) comes up with the reply's sender, sequence number and
timestamp, while `sampleMismatchResp` (version `"0302"`) is rejected
with `VersionMismatch`. -/
theorem C4_open_connection_witness :
    (RastaConnection.try_new 42).open_connection sampleConnResp = some (.ok upConn42) ∧
    (RastaConnection.try_new 42).open_connection sampleMismatchResp
      = some (.error .VersionMismatch) := by
  constructor
  · have h := (C4_open_connection (RastaConnection.try_new 42) sampleConnResp
      ([48, 51, 48, 49, 0, 255, 255] ++ List.replicate 7 0)
      (by decide) (by decide)).1 (by decide) (by decide)
    exact h.trans (by decide)
  · exact (C4_open_connection (RastaConnection.try_new 42) sampleMismatchResp
      ([48, 51, 48, 50] ++ List.replicate 10 0)
      (by decide) (by decide)).2 (by decide)

/-- C6 (counterexample): from a `Closed` connection, `open_connection`
presented with a valid `ConnResp` reaches `Up` again — `Closed` is not
absorbing, because `open_connection` never checks the current state. -/
theorem C6_counterexample :
    closedConn.state = .Closed ∧
    closedConn.open_connection sampleConnResp = some (.ok upConn42) ∧
    upConn42.state = .Up := by
  refine ⟨rfl, ?_, rfl⟩
  decide

/-- C6 (amended): once `Closed`, the operations `send_data`,
`send_heartbeat`, `close_connection` and `receive_message` keep the
state `Closed`; but `open_connection` does not check the state, and a
valid `ConnResp` reply takes even a `Closed` connection to `Up`. -/
theorem C6_state_monotonicity (c : RastaConnection) (h : c.state = .Closed) :
    (∀ ts d, ((c.send_data ts d).2).state = .Closed) ∧
    (∀ ts, ((c.send_heartbeat_msg ts).2).state = .Closed) ∧
    (∀ reply c', c.send_heartbeat_reply reply = some c' → c'.state = .Closed) ∧
    (∀ ts, (c.close_connection ts).2 = c) ∧
    (∀ msg, (c.receive_message msg).2 = c) ∧
    (∀ reply dta c', reply.data = some dta → 4 ≤ dta.length →
      extract dta 0 4 = RASTA_VERSION → reply.message_type = some .ConnResp →
      c.open_connection reply = some (.ok c') → c'.state = .Up) := by
  obtain ⟨cs, cid, cp, cseq, cct⟩ := c
  simp only at h
  subst h
  refine ⟨?_, ?_, ?_, ?_, ?_, ?_⟩
  · intro ts d
    cases cseq <;> rfl
  · intro ts
    cases cseq <;> rfl
  · intro reply c' hr
    simp only [RastaConnection.send_heartbeat_reply] at hr
    split at hr
    · cases hr
    · split at hr <;> (cases hr; rfl)
  · intro ts
    simp [RastaConnection.close_connection]
  · intro msg
    rfl
  · intro reply dta c' hdata hlen hv hmt hopen
    have := (C4_open_connection ⟨.Closed, cid, cp, cseq, cct⟩ reply dta hdata hlen).1 hv hmt
    rw [this] at hopen
    cases hopen
    rfl

/-- Witness for C6 (amended): a closed connection stays closed under
`send_data` and `close_connection`, and reaches `Up` through
`open_connection` on a valid `ConnResp`. -/
theorem C6_state_monotonicity_witness :
    ((closedConn.send_data 3 [1]).2).state = .Closed ∧
    (closedConn.close_connection 3).2 = closedConn ∧
    upConn42.state = .Up := by
  have h := C6_state_monotonicity closedConn (by decide)
  refine ⟨h.1 3 [1], h.2.2.2.1 3, ?_⟩
  have := h.2.2.2.2.2 sampleConnResp ([48, 51, 48, 49, 0, 255, 255] ++ List.replicate 7 0)
    upConn42 (by decide) (by decide) (by decide) (by decide) (by decide)
  exact this

theorem handshakeData_length (n : Nat) : (Message.handshakeData n).length = 14 := by
  have h1 : (writeAt (List.replicate 14 0) 0 RASTA_VERSION).length = 14 := by
    rw [writeAt_length _ _ _ (by simp [RASTA_VERSION])]
    simp
  rw [Message.handshakeData, writeAt_length _ _ _ (by rw [h1]; simp [writeLE_length]), h1]

/-- C5: after a handshake that set `seq_nr` to the peer's sequence
number `s0`, `N` `send_data` calls (no intervening receives) leave
`seq_nr = s0 + N`, the `i`-th send having drawn the pair
`(s0 + i, s0 + i + 1)` from `next_seq_nr` and stamped the outgoing
`Data` message with exactly those confirmed/sequence numbers. -/
theorem C5_seq_discipline (c : RastaConnection) (ts : Nat → Nat) (d : Nat → List Nat)
    (s0 N : Nat) (h0 : c.seq_nr = some s0) (hN : s0 + N < 2 ^ 32)
    (hd : ∀ i, (d i).length ≤ 990) :
    (RastaConnection.send_data_iter ts d c N).seq_nr = some (s0 + N) ∧
    (∀ i, i < N →
      ((RastaConnection.send_data_iter ts d c i).next_seq_nr).1 = (s0 + i, s0 + i + 1) ∧
      ((RastaConnection.send_data_iter ts d c i).send_data (ts i) (d i)).1.sequence_number
        = s0 + i + 1 ∧
      ((RastaConnection.send_data_iter ts d c i).send_data (ts i) (d i)).1.confirmed_sequence_number
        = s0 + i) := by
  have key : ∀ n, n ≤ N →
      (RastaConnection.send_data_iter ts d c n).seq_nr = some (s0 + n) := by
    intro n
    induction n with
    | zero => intro _; simpa using h0
    | succ n ih =>
      intro hn
      have hprev := ih (by omega)
      show ((RastaConnection.send_data_iter ts d c n).send_data (ts n) (d n)).2.seq_nr
        = some (s0 + (n + 1))
      simp only [RastaConnection.send_data, RastaConnection.next_seq_nr, hprev]
      congr 1
      omega
  refine ⟨by simpa using key N (Nat.le_refl N), ?_⟩
  intro i hi
  have hk := key i (by omega)
  refine ⟨?_, ?_, ?_⟩
  · simp only [RastaConnection.next_seq_nr, hk]
    rw [Nat.mod_eq_of_lt (by omega)]
  · simp only [RastaConnection.send_data, RastaConnection.next_seq_nr, hk]
    exact (build_sequence_number _ .Data _ _ _ _ _ _ _ (hd i)).trans (by omega)
  · simp only [RastaConnection.send_data, RastaConnection.next_seq_nr, hk]
    exact (build_confirmed_sequence_number _ .Data _ _ _ _ _ _ _ (hd i)).trans (by omega)

/-- Witness for C5: from `upConn42` (whose handshake set `seq_nr` to 6),
three sends leave `seq_nr = 9` and the third send used the pair
`(8, 9)`. -/
theorem C5_seq_discipline_witness :
    (RastaConnection.send_data_iter (fun _ => 0) (fun _ => []) upConn42 3).seq_nr = some 9 ∧
    ((RastaConnection.send_data_iter (fun _ => 0) (fun _ => []) upConn42 2).next_seq_nr).1
      = (8, 9) := by
  have h := C5_seq_discipline upConn42 (fun _ => 0) (fun _ => []) 6 3
    (by decide) (by decide) (fun _ => by simp)
  exact ⟨h.1, (h.2 2 (by decide)).1⟩

/-- C8 (counterexample): the `ConnResp` the listener sends back to
`sampleConnReq` (sequence number 4) carries sequence number 5, not 4 —
`connection_response` sets its sequence number to
`confirmed_sequence_number + 1`. -/
theorem C8_counterexample :
    (RastaListener.handleConnReq listener0 sampleConnReq 50).1.sequence_number = 5 ∧
    sampleConnReq.sequence_number = 4 ∧
    (RastaListener.handleConnReq listener0 sampleConnReq 50).1.sequence_number
      ≠ sampleConnReq.sequence_number := by
  refine ⟨by decide, by decide, by decide⟩

/-- C8 (amended): the listener's reply to a `ConnReq` is a `ConnResp`
whose confirmed sequence number is the incoming sequence number and
whose sequence number is the incoming sequence number + 1 (u32
arithmetic); the sender is appended to the peer set and `last_seq_nr`
becomes the incoming sequence number + 1. -/
theorem C8_listener_connreq (l : RastaListener) (msg : Message) (now : Nat)
    (hseq_lt : msg.sequence_number < 2 ^ 32) :
    (RastaListener.handleConnReq l msg now).1.sequence_number
        = (msg.sequence_number + 1) % 2 ^ 32 ∧
    (RastaListener.handleConnReq l msg now).1.confirmed_sequence_number
        = msg.sequence_number ∧
    (RastaListener.handleConnReq l msg now).1.message_type = some .ConnResp ∧
    (RastaListener.handleConnReq l msg now).2.seq_nr
        = some ((msg.sequence_number + 1) % 2 ^ 32) ∧
    (RastaListener.handleConnReq l msg now).2.connections
        = l.connections ++ [msg.sender] := by
  have hdl : (Message.handshakeData N_SENDMAX).length ≤ 990 := by
    rw [handshakeData_length]
    omega
  refine ⟨?_, ?_, ?_, rfl, rfl⟩
  · exact (build_sequence_number _ .ConnResp _ _ _ _ _ _ _ hdl).trans (by omega)
  · exact (build_confirmed_sequence_number _ .ConnResp _ _ _ _ _ _ _ hdl).trans (by omega)
  · exact build_message_type _ .ConnResp _ _ _ _ _ _ _ hdl

/-- Witness for C8 (amended) on `sampleConnReq`. -/
theorem C8_listener_connreq_witness :
    (RastaListener.handleConnReq listener0 sampleConnReq 50).1.confirmed_sequence_number = 4 ∧
    (RastaListener.handleConnReq listener0 sampleConnReq 50).2.seq_nr = some 5 ∧
    (RastaListener.handleConnReq listener0 sampleConnReq 50).2.connections = [2] := by
  have h := C8_listener_connreq listener0 sampleConnReq 50 (by decide)

  exact ⟨h.2.1.trans (by decide), h.2.2.2.1.trans (by decide), h.2.2.2.2.trans (by decide)⟩

/-- C2 (counterexample): a heartbeat encodes to the full 1024-byte
default buffer although its length field is 36, so
`encoded.len == message.length` fails. -/
theorem C2_counterexample :
    (Message.encode (Message.heartbeat 1 2 3 4 5 6)).length = 1024 ∧
    (Message.heartbeat 1 2 3 4 5 6).length = 36 ∧
    (Message.encode (Message.heartbeat 1 2 3 4 5 6)).length
      ≠ (Message.heartbeat 1 2 3 4 5 6).length := by
  refine ⟨by decide, by decide, by decide⟩

/-- C2 (amended): every constructed message encodes to exactly 1024
bytes (the pre-allocated default buffer), while its length field is the
documented value (50 for ConnReq/ConnResp, 36 for HB/RetrReq/RetrResp,
40 for DiscReq, 36 + payload length for Data/RetrData) — in particular
the length field is always at least 36. -/
theorem C2_length_consistency (r s q cq t ct n : Nat) (d : List Nat)
    (hd : d.length ≤ 990) :
    ((Message.encode (Message.connection_request r s t n)).length = 1024 ∧
      (Message.connection_request r s t n).length = 50) ∧
    ((Message.encode (Message.connection_response r s cq t ct n)).length = 1024 ∧
      (Message.connection_response r s cq t ct n).length = 50) ∧
    ((Message.encode (Message.retransmission_request r s q cq t ct)).length = 1024 ∧
      (Message.retransmission_request r s q cq t ct).length = 36) ∧
    ((Message.encode (Message.retransmission_response r s q cq t ct)).length = 1024 ∧
      (Message.retransmission_response r s q cq t ct).length = 36) ∧
    ((Message.encode (Message.heartbeat r s q cq t ct)).length = 1024 ∧
      (Message.heartbeat r s q cq t ct).length = 36) ∧
    ((Message.encode (Message.disconnection_request r s q cq t ct)).length = 1024 ∧
      (Message.disconnection_request r s q cq t ct).length = 40) ∧
    ((Message.encode (Message.data_message r s q cq t ct d)).length = 1024 ∧
      (Message.data_message r s q cq t ct d).length = 36 + d.length) ∧
    ((Message.encode (Message.retransmitted_data_message r s q cq t ct d)).length = 1024 ∧
      (Message.retransmitted_data_message r s q cq t ct d).length = 36 + d.length) := by
  have hhs : (Message.handshakeData n).length ≤ 990 := by
    rw [handshakeData_length]
    omega
  have hnil : ([] : List Nat).length ≤ 990 := by simp
  refine ⟨⟨?_, ?_⟩, ⟨?_, ?_⟩, ⟨?_, ?_⟩, ⟨?_, ?_⟩, ⟨?_, ?_⟩, ⟨?_, ?_⟩, ⟨?_, ?_⟩, ⟨?_, ?_⟩⟩
  · exact build_content_length _ .ConnReq _ _ _ _ _ _ _ hhs
  · exact (build_length_field _ .ConnReq _ _ _ _ _ _ _ hhs).trans (by norm_num)
  · exact build_content_length _ .ConnResp _ _ _ _ _ _ _ hhs
  · exact (build_length_field _ .ConnResp _ _ _ _ _ _ _ hhs).trans (by norm_num)
  · exact build_content_length _ .RetrReq _ _ _ _ _ _ _ hnil
  · exact (build_length_field _ .RetrReq _ _ _ _ _ _ _ hnil).trans (by norm_num)
  · exact build_content_length _ .RetrResp _ _ _ _ _ _ _ hnil
  · exact (build_length_field _ .RetrResp _ _ _ _ _ _ _ hnil).trans (by norm_num)
  · exact build_content_length _ .HB _ _ _ _ _ _ _ hnil
  · exact (build_length_field _ .HB _ _ _ _ _ _ _ hnil).trans (by norm_num)
  · exact build_content_length _ .DiscReq _ _ _ _ _ _ _ hnil
  · exact (build_length_field _ .DiscReq _ _ _ _ _ _ _ hnil).trans (by norm_num)
  · exact build_content_length _ .Data _ _ _ _ _ _ _ hd
  · exact (build_length_field _ .Data _ _ _ _ _ _ _ hd).trans (by omega)
  · exact build_content_length _ .RetrData _ _ _ _ _ _ _ hd
  · exact (build_length_field _ .RetrData _ _ _ _ _ _ _ hd).trans (by omega)

/-- Witness for C2 (amended) on a 2-byte data message. -/
theorem C2_length_consistency_witness :
    (Message.encode (Message.data_message 1 2 3 4 5 6 [7, 8])).length = 1024 ∧
    (Message.data_message 1 2 3 4 5 6 [7, 8]).length = 38 := by
  have h := C2_length_consistency 1 2 3 4 5 6 7 [7, 8] (by decide)
  exact ⟨h.2.2.2.2.2.2.1.1, h.2.2.2.2.2.2.1.2.trans (by decide)⟩

theorem fromBytes_build (L : Nat) (M : MessageType) (R S Q C T CT : Nat) (d : List Nat)
    (hd : d.length ≤ 990) (hL36 : 36 ≤ L % 2 ^ 16) :
    Message.fromBytes (Message.build L M R S Q C T CT d).content
      = some (Message.mk (Message.build L M R S Q C T CT d).content
          (some (L % 2 ^ 16 - 36))) := by
  have hcl := build_content_length L M R S Q C T CT d hd
  have hlf : readLE (Message.build L M R S Q C T CT d).content 0 2 = L % 2 ^ 16 :=
    build_length_field L M R S Q C T CT d hd
  simp only [Message.fromBytes, hcl, hlf]
  rw [if_neg (by omega), if_neg (by omega)]

/-- C1 (counterexample): decoding an encoded `DiscReq` does not give
back the constructed message: the constructed one has empty data, but
the decoder derives `data_len = length - 36 = 4`, so the decoded
message's data is the four zero bytes `[0,0,0,0]`. -/
theorem C1_counterexample :
    Message.fromBytes (Message.encode sampleDiscReq) ≠ some sampleDiscReq ∧
    (Message.fromBytes (Message.encode sampleDiscReq)).map Message.data
      = some (some [0, 0, 0, 0]) ∧
    sampleDiscReq.data = some [] := by
  refine ⟨by decide, by decide, by decide⟩

/-- C1 (amended): the encode/decode round-trip returns the constructed
message itself for ConnReq, ConnResp, RetrReq, RetrResp, HB, Data and
RetrData (hence every observable field round-trips); for DiscReq every
field except the data round-trips — the decoded message carries
`data_len = 40 - 36 = 4`, so its data is `[0,0,0,0]` where the
constructed message's data is empty. -/
theorem C1_roundtrip (r s q cq t ct n : Nat) (d : List Nat) (hd : d.length ≤ 990) :
    Message.fromBytes (Message.encode (Message.connection_request r s t n))
        = some (Message.connection_request r s t n) ∧
    Message.fromBytes (Message.encode (Message.connection_response r s cq t ct n))
        = some (Message.connection_response r s cq t ct n) ∧
    Message.fromBytes (Message.encode (Message.retransmission_request r s q cq t ct))
        = some (Message.retransmission_request r s q cq t ct) ∧
    Message.fromBytes (Message.encode (Message.retransmission_response r s q cq t ct))
        = some (Message.retransmission_response r s q cq t ct) ∧
    Message.fromBytes (Message.encode (Message.heartbeat r s q cq t ct))
        = some (Message.heartbeat r s q cq t ct) ∧
    Message.fromBytes (Message.encode (Message.data_message r s q cq t ct d))
        = some (Message.data_message r s q cq t ct d) ∧
    Message.fromBytes (Message.encode (Message.retransmitted_data_message r s q cq t ct d))
        = some (Message.retransmitted_data_message r s q cq t ct d) ∧
    Message.fromBytes (Message.encode (Message.disconnection_request r s q cq t ct))
        = some (Message.mk (Message.disconnection_request r s q cq t ct).content (some 4)) ∧
    (Message.disconnection_request r s q cq t ct).data_len = some 0 ∧
    (Message.disconnection_request r s q cq t ct).data = some [] ∧
    Message.data (Message.mk (Message.disconnection_request r s q cq t ct).content (some 4))
        = some [0, 0, 0, 0] := by
  have hhs : (Message.handshakeData n).length ≤ 990 := by
    rw [handshakeData_length]
    omega
  have hnil : ([] : List Nat).length ≤ 990 := by simp
  have hds : (50 % 2 ^ 16 - 36 : Nat) = (Message.handshakeData n).length := by
    rw [handshakeData_length]
    norm_num
  have hcl40 := build_content_length 40 .DiscReq r s q cq t ct [] hnil
  refine ⟨?_, ?_, ?_, ?_, ?_, ?_, ?_, ?_, rfl, ?_, ?_⟩
  · refine (fromBytes_build 50 .ConnReq r s 4 0 t 0 (Message.handshakeData n) hhs
      (by norm_num)).trans ?_
    rw [hds]
    rfl
  · refine (fromBytes_build 50 .ConnResp r s ((cq + 1) % 2 ^ 32) cq t ct
      (Message.handshakeData n) hhs (by norm_num)).trans ?_
    rw [hds]
    rfl
  · refine (fromBytes_build 36 .RetrReq r s q cq t ct [] hnil (by norm_num)).trans ?_
    norm_num
    rfl
  · refine (fromBytes_build 36 .RetrResp r s q cq t ct [] hnil (by norm_num)).trans ?_
    norm_num
    rfl
  · refine (fromBytes_build 36 .HB r s q cq t ct [] hnil (by norm_num)).trans ?_
    norm_num
    rfl
  · refine (fromBytes_build ((36 + d.length) % 2 ^ 16) .Data r s q cq t ct d hd
      (by omega)).trans ?_
    have he : ((36 + d.length) % 2 ^ 16) % 2 ^ 16 - 36 = d.length := by omega
    rw [he]
    rfl
  · refine (fromBytes_build ((36 + d.length) % 2 ^ 16) .RetrData r s q cq t ct d hd
      (by omega)).trans ?_
    have he : ((36 + d.length) % 2 ^ 16) % 2 ^ 16 - 36 = d.length := by omega
    rw [he]
    rfl
  · refine (fromBytes_build 40 .DiscReq r s q cq t ct [] hnil (by norm_num)).trans ?_
    norm_num
    rfl
  · show Message.data (Message.build 40 .DiscReq r s q cq t ct []) = some []
    simp only [Message.data, build_data_len, hcl40]
    norm_num [extract]
  · show Message.data
      (Message.mk (Message.build 40 .DiscReq r s q cq t ct []).content (some 4))
        = some [0, 0, 0, 0]
    simp only [Message.data, hcl40]
    rw [if_pos (by omega), extract_as_getD _ _ _ (by rw [hcl40]; omega)]
    have g0 := build_getD_untouched 40 .DiscReq r s q cq t ct 34 (by omega) (by omega)
    have g1 := build_getD_untouched 40 .DiscReq r s q cq t ct 35 (by omega) (by omega)
    have g2 := build_getD_untouched 40 .DiscReq r s q cq t ct 36 (by omega) (by omega)
    have g3 := build_getD_untouched 40 .DiscReq r s q cq t ct 37 (by omega) (by omega)
    simp only [List.getD_eq_getElem?_getD] at g0 g1 g2 g3
    simp [List.range_succ, g0, g1, g2, g3]

/-- Witness for C1 (amended): the round-trip identities at concrete
field values, including a 1-byte data message. -/
theorem C1_roundtrip_witness :
    Message.fromBytes (Message.encode (Message.heartbeat 1 2 3 4 5 6))
        = some (Message.heartbeat 1 2 3 4 5 6) ∧
    Message.fromBytes (Message.encode (Message.data_message 1 2 3 4 5 6 [9]))
        = some (Message.data_message 1 2 3 4 5 6 [9]) := by
  have h := C1_roundtrip 1 2 3 4 5 6 7 [9] (by decide)
  exact ⟨h.2.2.2.2.1, h.2.2.2.2.2.1⟩

/-- C3 (counterexample): a 2-byte buffer (shorter than 36) whose length
field reads 40 decodes *successfully* — `From<&[u8]>` is infallible and
performs no buffer-length check — and a 3-byte SCI buffer with a valid
protocol byte and message type panics (index out of bounds, modelled
`none`) instead of failing with a `Malformed` error; indeed neither
`RastaError` nor `SciError` has a `Malformed` variant. -/
theorem C3_counterexample :
    ([40, 0] : List Nat).length < 36 ∧ (Message.fromBytes [40, 0]).isSome = true ∧
    ([0x40, 1, 0] : List Nat).length < 43 ∧ SCITelegram.tryFromBytes [0x40, 1, 0] = none := by
  refine ⟨by decide, by decide, by decide, by decide⟩

/-- C3 (amended): `Message::from` panics on buffers shorter than 2
bytes or with a length field below 36 (debug arithmetic), and succeeds
— without any error — on any buffer of at least 2 bytes whose length
field is at least 36, even one shorter than 36 bytes;
`SCITelegram::try_from` never returns a successfully decoded telegram
for a buffer shorter than 43 bytes (it panics, or rejects the first
bytes with `UnknownProtocol`/`UnknownMessageType` — never with a
`Malformed` error, which does not exist). -/
theorem C3_decode_short (val : List Nat) :
    (val.length < 2 → Message.fromBytes val = none) ∧
    (2 ≤ val.length → readLE val 0 2 < 36 → Message.fromBytes val = none) ∧
    (2 ≤ val.length → 36 ≤ readLE val 0 2 →
      Message.fromBytes val = some (Message.mk val (some (readLE val 0 2 - 36)))) ∧
    (val.length < 43 → ∀ t, SCITelegram.tryFromBytes val ≠ some (.ok t)) := by
  refine ⟨?_, ?_, ?_, ?_⟩
  · intro h
    simp only [Message.fromBytes]
    rw [if_pos h]
  · intro h1 h2
    simp only [Message.fromBytes]
    rw [if_neg (by omega), if_pos h2]
  · intro h1 h2
    simp only [Message.fromBytes]
    rw [if_neg (by omega), if_neg (by omega)]
  · intro hlen t
    simp only [SCITelegram.tryFromBytes]
    by_cases h1 : val.length < 1
    · simp [h1]
    · simp only [if_neg h1]
      cases hpt : ProtocolType.tryFrom (val.getD 0 0) with
      | none => simp
      | some pt =>
        by_cases h3 : val.length < 3
        · simp [h3]
        · simp only [if_neg h3]
          cases hmt : SCITelegram.resolve pt (readLE val 1 2) with
          | none => simp
          | some mt => simp [hlen]

/-- Witness for C3 (amended): the empty buffer panics, `[40, 0]`
decodes successfully despite having fewer than 36 bytes, and a 3-byte
SCI buffer never decodes to a telegram. -/
theorem C3_decode_short_witness :
    Message.fromBytes [] = none ∧
    Message.fromBytes [40, 0] = some (Message.mk [40, 0] (some 4)) ∧
    SCITelegram.tryFromBytes [0x40, 1, 0] ≠ some (.ok sampleTelegram) := by
  have h1 := (C3_decode_short []).1 (by decide)
  have h2 := (C3_decode_short [40, 0]).2.2.1 (by decide) (by decide)
  have h3 := (C3_decode_short [0x40, 1, 0]).2.2.2 (by decide) sampleTelegram
  exact ⟨h1, h2.trans (by decide), h3⟩

theorem str_to_sci_name_length (name : List Nat) : (str_to_sci_name name).length = 20 := by
  rw [str_to_sci_name]
  split
  · simp
    omega
  · simp [List.length_take]
    omega

theorem try_as_sci_some (v w : Nat)
    (h : SCIMessageType.try_as_sci_message_type_from v = some w) : w = v ∧ v < 2 ^ 16 := by
  simp only [SCIMessageType.try_as_sci_message_type_from] at h
  split at h
  · cases h
    refine ⟨rfl, by omega⟩
  · cases h

theorem resolve_some (pt : ProtocolType) (v w : Nat)
    (h : SCITelegram.resolve pt v = some w) : w = v ∧ v < 2 ^ 16 := by
  cases pt <;>
    simp only [SCITelegram.resolve, SCIMessageType.try_as_scip_message_type_from,
      SCIMessageType.try_as_scils_message_type_from,
      SCIMessageType.try_as_scitds_message_type_from] at h
  case SCIProtocolTDS =>
    split at h
    · cases h
      refine ⟨rfl, by omega⟩
    · exact try_as_sci_some v w h
  case SCIProtocolLS =>
    split at h
    · cases h
      refine ⟨rfl, by omega⟩
    · exact try_as_sci_some v w h
  case SCIProtocolP =>
    split at h
    · cases h
      refine ⟨rfl, by omega⟩
    · exact try_as_sci_some v w h
  all_goals cases h

theorem getD_append_left (l₁ l₂ : List Nat) (n : Nat) (h : n < l₁.length) :
    (l₁ ++ l₂).getD n 0 = l₁.getD n 0 := by
  simp [List.getD_eq_getElem?_getD, List.getElem?_append_left h]

theorem getD_append_right (l₁ l₂ : List Nat) (n : Nat) (h : l₁.length ≤ n) :
    (l₁ ++ l₂).getD n 0 = l₂.getD (n - l₁.length) 0 := by
  simp [List.getD_eq_getElem?_getD, List.getElem?_append_right h]

theorem tryFromBytes_encodeParts (pt : ProtocolType) (mt : Nat) (n1 n2 tail : List Nat)
    (hpt : ProtocolType.tryFrom pt.code = some pt)
    (hmt : SCITelegram.resolve pt mt = some mt) (hmtlt : mt < 2 ^ 16)
    (hn1 : n1.length = 20) (hn2 : n2.length = 20) (htail : tail.length ≤ 85) :
    SCITelegram.tryFromBytes ([pt.code] ++ writeLE mt 2 ++ n1 ++ n2 ++ tail)
      = some (.ok (SCITelegram.mk pt mt n1 n2 (SCIPayload.from_slice tail))) := by
  have e0 : ([pt.code] ++ writeLE mt 2 ++ n1 ++ n2 ++ tail).length = 43 + tail.length := by
    simp [writeLE_length, hn1, hn2]
    omega
  have hq : ([pt.code] ++ writeLE mt 2 ++ n1 ++ n2 ++ tail).getD 0 0 = pt.code := by
    rw [getD_append_left _ _ _ (by simp [writeLE_length, hn1, hn2]),
      getD_append_left _ _ _ (by simp [writeLE_length, hn1]),
      getD_append_left _ _ _ (by simp [writeLE_length]),
      getD_append_left _ _ _ (by simp)]
    rfl
  have hr12 : readLE ([pt.code] ++ writeLE mt 2 ++ n1 ++ n2 ++ tail) 1 2 = mt % 2 ^ 16 := by
    have hcongr : readLE ([pt.code] ++ writeLE mt 2 ++ n1 ++ n2 ++ tail) 1 2
        = readLE (writeLE mt 2) 0 2 := by
      refine readLE_congr 2 _ _ 1 0 fun j hj => ?_
      rw [getD_append_left _ _ _ (by simp [writeLE_length, hn1, hn2]; omega),
        getD_append_left _ _ _ (by simp [writeLE_length, hn1]; omega),
        getD_append_left _ _ _ (by simp [writeLE_length]; omega),
        getD_append_right _ _ _ (by simp)]
      have hidx : 1 + j - ([pt.code] : List Nat).length = 0 + j := by
        simp
      rw [hidx]
    rw [hcongr, readLE_writeLE]
    norm_num
  have hsender : extract ([pt.code] ++ writeLE mt 2 ++ n1 ++ n2 ++ tail) 3 20 = n1 := by
    have e3 : [pt.code] ++ writeLE mt 2 ++ n1 ++ n2 ++ tail
        = ([pt.code] ++ writeLE mt 2) ++ (n1 ++ (n2 ++ tail)) := by
      simp [List.append_assoc]
    rw [extract, e3, List.drop_left' (by simp [writeLE_length])]
    rw [show (20 : Nat) = n1.length from hn1.symm, List.take_left]
  have hreceiver : extract ([pt.code] ++ writeLE mt 2 ++ n1 ++ n2 ++ tail) 23 20 = n2 := by
    have e23 : [pt.code] ++ writeLE mt 2 ++ n1 ++ n2 ++ tail
        = (([pt.code] ++ writeLE mt 2) ++ n1) ++ (n2 ++ tail) := by
      simp [List.append_assoc]
    rw [extract, e23, List.drop_left' (by simp [writeLE_length, hn1])]
    rw [show (20 : Nat) = n2.length from hn2.symm, List.take_left]
  have hdrop43 : ([pt.code] ++ writeLE mt 2 ++ n1 ++ n2 ++ tail).drop 43 = tail :=
    List.drop_left' (by simp [writeLE_length, hn1, hn2])
  simp only [SCITelegram.tryFromBytes]
  rw [if_neg (by rw [e0]; omega)]
  simp only [hq, hpt]
  rw [if_neg (by rw [e0]; omega)]
  simp only [hr12, Nat.mod_eq_of_lt hmtlt, hmt]
  rw [if_neg (by rw [e0]; omega), if_neg (by rw [e0]; omega), hsender, hreceiver, hdrop43]

/-- C7 (counterexample): an SCI-P `ChangeLocation` telegram with a
1-byte payload does not round-trip: the encoder emits the whole 85-byte
payload array, so the decoded telegram's payload has `used = 85`
instead of 1 (the names, being padded, differ from the originals as
well). -/
theorem C7_counterexample :
    SCITelegram.tryFromBytes (SCITelegram.toBytes sampleTelegram)
      = some (.ok sampleDecodedTelegram) ∧
    sampleTelegram.payload.used = 1 ∧
    sampleDecodedTelegram.payload.used = 85 ∧
    SCITelegram.tryFromBytes (SCITelegram.toBytes sampleTelegram)
      ≠ some (.ok sampleTelegram) := by
  refine ⟨by decide, by decide, by decide, by decide⟩

/-- C7 (amended): for every protocol in {P, LS, TDS} and every message
type its resolver accepts, decoding the encoded telegram preserves the
protocol type, the message type and the 85-byte payload array, and maps
the names to their underscore-padded (length ≤ 20) or truncated
(length > 20) 20-byte forms; the payload's used length decodes as 0
when it was 0 and as 85 otherwise (the encoder emits the whole array),
so it round-trips exactly when `used` is 0 or 85.  (Names are modelled
as byte sequences; the ASCII hypotheses mark where
`String::from_utf8_lossy` is the identity.) -/
theorem C7_sci_roundtrip (pt : ProtocolType) (mt : Nat) (sn rc pd : List Nat)
    (hpt : ProtocolType.tryFrom pt.code = some pt)
    (hmt : SCITelegram.resolve pt mt = some mt)
    (hpd : pd.length ≤ 85)
    (hsn : ∀ b ∈ sn, b < 128) (hrc : ∀ b ∈ rc, b < 128) :
    SCITelegram.tryFromBytes (SCITelegram.toBytes
        (SCITelegram.mk pt mt sn rc (SCIPayload.from_slice pd)))
      = some (.ok (SCITelegram.mk pt mt (str_to_sci_name sn) (str_to_sci_name rc)
          (SCIPayload.mk (SCIPayload.from_slice pd).data
            (if pd.length = 0 then 0 else 85)))) ∧
    (sn.length ≤ 20 → str_to_sci_name sn = sn ++ List.replicate (20 - sn.length) 95) ∧
    (20 < sn.length → str_to_sci_name sn = sn.take 20) := by
  have hmtlt : mt < 2 ^ 16 := (resolve_some pt mt mt hmt).2
  refine ⟨?_, ?_, ?_⟩
  · by_cases hu : pd.length = 0
    · have hpd0 : pd = [] := List.length_eq_zero.mp hu
      subst hpd0
      have h := tryFromBytes_encodeParts pt mt (str_to_sci_name sn) (str_to_sci_name rc) []
        hpt hmt hmtlt (str_to_sci_name_length sn) (str_to_sci_name_length rc) (by simp)
      refine Eq.trans ?_ (h.trans ?_)
      · rfl
      · simp [SCIPayload.from_slice]
    · have hused : (SCIPayload.from_slice pd).used = pd.length := rfl
      have hdlen : (SCIPayload.from_slice pd).data.length = 85 := by
        simp [SCIPayload.from_slice]
        omega
      have h := tryFromBytes_encodeParts pt mt (str_to_sci_name sn) (str_to_sci_name rc)
        (SCIPayload.from_slice pd).data
        hpt hmt hmtlt (str_to_sci_name_length sn) (str_to_sci_name_length rc)
        (by rw [hdlen])
      refine Eq.trans ?_ (h.trans ?_)
      · show SCITelegram.tryFromBytes (SCITelegram.toBytes _) = _
        simp only [SCITelegram.toBytes]
        rw [if_pos (by rw [hused]; omega)]
      · rw [if_neg hu]
        have hlen85 : (pd ++ List.replicate (85 - pd.length) 0).length = 85 := by
          simp
          omega
        simp [SCIPayload.from_slice, hlen85]
  · intro h20
    rw [str_to_sci_name]
    by_cases hlt : sn.length < 20
    · rw [if_pos hlt]
    · rw [if_neg hlt]
      have h20' : sn.length = 20 := by omega
      rw [List.take_of_length_le (by omega), show 20 - sn.length = 0 from by omega]
      simp
  · intro h20
    rw [str_to_sci_name, if_neg (by omega)]

/-- Witness for C7 (amended): a TDS telegram with an empty payload
round-trips exactly, and `sampleTelegram` (payload `[2]`, `used = 1`)
decodes with the same payload bytes but `used = 85`. -/
theorem C7_sci_roundtrip_witness :
    SCITelegram.tryFromBytes (SCITelegram.toBytes
        (SCITelegram.mk .SCIProtocolTDS 7 [84] [67] (SCIPayload.from_slice [])))
      = some (.ok (SCITelegram.mk .SCIProtocolTDS 7
          ([84] ++ List.replicate 19 95) ([67] ++ List.replicate 19 95)
          (SCIPayload.from_slice []))) ∧
    SCITelegram.tryFromBytes (SCITelegram.toBytes sampleTelegram)
      = some (.ok sampleDecodedTelegram) := by
  constructor
  · have h := (C7_sci_roundtrip .SCIProtocolTDS 7 [84] [67] []
      (by decide) (by decide) (by decide) (by decide) (by decide)).1
    exact h.trans (by decide)
  · have h := (C7_sci_roundtrip .SCIProtocolP 1 [67] [83] [2]
      (by decide) (by decide) (by decide) (by decide) (by decide)).1
    exact h.trans (by decide)
